import Mathlib

/-!
Verification of the task-dispatch engine in
`src/stacks/organelles/task_dispatcher.py` (class `TaskDispatcherOrganelle`).

The embedding translates the dispatch engine directly from the Python source:
enums become inductive types, Pydantic models become structures, the
insertion-ordered `dict` registry becomes an association list with
update-or-append semantics, and Python float arithmetic in the fitness score
becomes exact rational arithmetic over `ℚ`.  Network delivery outcome
(`send_to_desktop_cell`) is a boolean parameter of the dispatch step, since it
depends only on the external HTTP exchange.  `asyncio.Queue` is modelled by a
list with FIFO put/get, its documented semantics.
-/

/-- `TaskPriority` enum of the source (`LOW = 1 .. CRITICAL = 4`). -/
inductive TaskPriority where
  | low
  | normal
  | high
  | critical
deriving DecidableEq

/-- The numeric value of a `TaskPriority` member, as in the Python enum. -/
def TaskPriority.val : TaskPriority → Int
  | .low => 1
  | .normal => 2
  | .high => 3
  | .critical => 4

/-- `TaskType` enum of the source. -/
inductive TaskType where
  | lightweight
  | complex
  | network
  | system
deriving DecidableEq

/-- The string value of a `TaskType` member, as in the Python enum. -/
def TaskType.val : TaskType → String
  | .lightweight => "lightweight"
  | .complex => "complex"
  | .network => "network"
  | .system => "system"

/-- `TaskStatus` enum of the source. -/
inductive TaskStatus where
  | pending
  | assigned
  | running
  | completed
  | failed
  | timeout
deriving DecidableEq

/-- The string value of a `TaskStatus` member. -/
def TaskStatus.val : TaskStatus → String
  | .pending => "pending"
  | .assigned => "assigned"
  | .running => "running"
  | .completed => "completed"
  | .failed => "failed"
  | .timeout => "timeout"

/-- Python's `str.upper()` on the character list (for the ASCII member
names involved this is exactly character-wise upper-casing; it agrees with
`String.toUpper`, restated over the list of characters so that terms
kernel-reduce). -/
def strUpper (s : String) : String :=
  String.mk (s.data.map Char.toUpper)

/-- `TaskPriority[priority.upper()]` of the source: enum lookup by member
name after upper-casing; a failed lookup raises `KeyError` in Python, here
`none`. -/
def parseTaskPriority (s : String) : Option TaskPriority :=
  if strUpper s = "LOW" then some .low
  else if strUpper s = "NORMAL" then some .normal
  else if strUpper s = "HIGH" then some .high
  else if strUpper s = "CRITICAL" then some .critical
  else none

/-- `TaskType(request.task_type)` of the source: enum lookup by value; a
failed lookup raises `ValueError` in Python, here `none`. -/
def parseTaskType (s : String) : Option TaskType :=
  if s = "lightweight" then some .lightweight
  else if s = "complex" then some .complex
  else if s = "network" then some .network
  else if s = "system" then some .system
  else none

/-- `TaskRequest` model.  The payload is opaque data forwarded unmodified,
modelled as a string. -/
structure TaskRequest where
  task_type : String
  priority : String
  payload : String
  timeout_seconds : Int
  requires_desktop : Bool
deriving DecidableEq

/-- The `task_data` dict built in `submit_task` and carried through the
queue: task id, the request, submission timestamp and a status string. -/
structure TaskData where
  task_id : String
  request : TaskRequest
  submitted_at : String
  status : String
deriving DecidableEq

/-- `TaskAssignment` model. -/
structure TaskAssignment where
  task_id : String
  assigned_to : String
  assigned_at : String
deriving DecidableEq

/-- `OrganelleCapacity` model.  `last_heartbeat` is an ISO timestamp string
in the source; it is modelled as `Option Int` (seconds), `none` standing for
a string `datetime.fromisoformat` fails to parse. -/
structure OrganelleCapacity where
  organelle_id : String
  type : String
  max_concurrent_tasks : Int
  current_tasks : Int
  capabilities : List String
  last_heartbeat : Option Int
deriving DecidableEq

/-- `organelle_can_handle_task`: the desktop cell handles everything;
otherwise the task type's value string must be declared in the worker's
capability list (one branch per `TaskType` member in the source). -/
def organelleCanHandleTask (c : OrganelleCapacity) (t : TaskType) : Bool :=
  if c.type = "desktop-cell" then true
  else
    match t with
    | .lightweight => c.capabilities.contains "lightweight"
    | .network => c.capabilities.contains "network"
    | .system => c.capabilities.contains "system"
    | .complex => c.capabilities.contains "complex"

/-- The priority bonus term of `calculate_organelle_fitness`:
`TaskPriority[request.priority.upper()].value * 5`, with the bare
`except: pass` leaving the score unchanged (0) on an invalid priority. -/
def priorityBonus (priority : String) : ℚ :=
  match parseTaskPriority priority with
  | some p => (p.val : ℚ) * 5
  | none => 0

/-- `calculate_organelle_fitness`, with Python float arithmetic carried out
exactly in `ℚ`.  `t` is `TaskType(request.task_type)` as parsed by the
caller's code path; the desktop-cell/complex bonus compares the raw
`request.task_type` string exactly as the source does. -/
def calculateOrganelleFitness (c : OrganelleCapacity) (req : TaskRequest)
    (t : TaskType) : ℚ :=
  let load_factor : ℚ :=
    1 - (c.current_tasks : ℚ) / (c.max_concurrent_tasks : ℚ)
  let s1 : ℚ := load_factor * 50
  let s2 : ℚ := s1 + (if c.capabilities.contains t.val then 30 else 0)
  let s3 : ℚ :=
    s2 + (if c.type = "desktop-cell" ∧ req.task_type = TaskType.complex.val
          then 20 else 0)
  s3 + priorityBonus req.priority

/-- The candidate filter of `find_best_organelle`: skip workers at or over
capacity (`current_tasks >= max_concurrent_tasks`) and workers that cannot
handle the task type. -/
def eligibleOrganelles (regv : List OrganelleCapacity) (t : TaskType) :
    List OrganelleCapacity :=
  regv.filter fun c =>
    decide (c.current_tasks < c.max_concurrent_tasks) &&
      organelleCanHandleTask c t

/-- The scored candidate list `(score, capacity)` built by
`find_best_organelle` in registry iteration order. -/
def findCandidates (regv : List OrganelleCapacity) (req : TaskRequest)
    (t : TaskType) : List (ℚ × OrganelleCapacity) :=
  (eligibleOrganelles regv t).map fun c =>
    (calculateOrganelleFitness c req t, c)

/-- One insertion step of a stable descending sort on the first component:
the new element goes in front of the first element whose score it meets or
exceeds, so among equal scores earlier elements stay earlier.  This is the
(unique) order produced by Python's stable
`candidates.sort(key=lambda x: x[0], reverse=True)`. -/
def insertDesc {α : Type} (x : ℚ × α) : List (ℚ × α) → List (ℚ × α)
  | [] => [x]
  | y :: ys => if y.1 ≤ x.1 then x :: y :: ys else y :: insertDesc x ys

/-- Stable descending sort by score, `candidates.sort(..., reverse=True)`. -/
def sortDesc {α : Type} (l : List (ℚ × α)) : List (ℚ × α) :=
  l.foldr insertDesc []

/-- `find_best_organelle`: build the scored candidate list, sort it
descending by score (stably), and return the first candidate's capacity;
`None` when no candidate exists. -/
def findBestOrganelle (regv : List OrganelleCapacity) (req : TaskRequest)
    (t : TaskType) : Option OrganelleCapacity :=
  match sortDesc (findCandidates regv req t) with
  | [] => none
  | c :: _ => some c.2

/-- The specification's selection contract, written from its words: return
the argmax of the score over the eligible set, ties broken in favour of the
first candidate encountered in iteration order, and no candidate for an
empty eligible set.  Defined independently of `findBestOrganelle` to compare
the two. -/
def firstArgmax {α : Type} (f : α → ℚ) : List α → Option α
  | [] => none
  | x :: xs =>
    match firstArgmax f xs with
    | none => some x
    | some m => if f x < f m then some m else some x

theorem firstArgmax_cons_none {α : Type} (f : α → ℚ) (x : α) (xs : List α)
    (h : firstArgmax f xs = none) : firstArgmax f (x :: xs) = some x := by
  unfold firstArgmax
  rw [h]

theorem firstArgmax_cons_some {α : Type} (f : α → ℚ) (x : α) (xs : List α)
    (m : α) (h : firstArgmax f xs = some m) :
    firstArgmax f (x :: xs) = if f x < f m then some m else some x := by
  unfold firstArgmax
  rw [h]

theorem firstArgmax_nil_of_none {α : Type} (f : α → ℚ) (l : List α)
    (h : firstArgmax f l = none) : l = [] := by
  cases l with
  | nil => rfl
  | cons x xs =>
    exfalso
    cases h2 : firstArgmax f xs with
    | none => rw [firstArgmax_cons_none f x xs h2] at h; exact Option.noConfusion h
    | some m =>
      rw [firstArgmax_cons_some f x xs m h2] at h
      by_cases hc : f x < f m
      · rw [if_pos hc] at h; exact Option.noConfusion h
      · rw [if_neg hc] at h; exact Option.noConfusion h

theorem sortDesc_nil_iff {α : Type} (l : List (ℚ × α)) :
    sortDesc l = [] ↔ l = [] := by
  constructor
  · intro h
    cases l with
    | nil => rfl
    | cons x xs =>
      exfalso
      have : insertDesc x (sortDesc xs) = [] := h
      cases hs : sortDesc xs with
      | nil => rw [hs] at this; exact List.cons_ne_nil _ _ this
      | cons y ys =>
        rw [hs] at this
        unfold insertDesc at this
        split at this <;> exact List.cons_ne_nil _ _ this
  · intro h; subst h; rfl

theorem sortDesc_head_firstArgmax {α : Type} (f : α → ℚ) (l : List α) :
    (sortDesc (l.map fun c => (f c, c))).head? =
      (firstArgmax f l).map fun m => (f m, m) := by
  induction l with
  | nil => rfl
  | cons c cs ih =>
    have hfold : sortDesc ((c :: cs).map fun c => (f c, c)) =
        insertDesc (f c, c) (sortDesc (cs.map fun c => (f c, c))) := rfl
    rw [hfold]
    cases hs : sortDesc (cs.map fun c => (f c, c)) with
    | nil =>
      have hcs : cs.map (fun c => (f c, c)) = [] := (sortDesc_nil_iff _).mp hs
      have hcs' : cs = [] := by
        cases cs with
        | nil => rfl
        | cons a l => simp at hcs
      subst hcs'
      rfl
    | cons y ys =>
      rw [hs] at ih
      cases hfa : firstArgmax f cs with
      | none => rw [hfa] at ih; simp at ih
      | some m =>
        rw [hfa] at ih
        have hy : y = (f m, m) := by
          simpa using ih
        subst hy
        show (insertDesc (f c, c) ((f m, m) :: ys)).head? = _
        rw [firstArgmax_cons_some f c cs m hfa]
        unfold insertDesc
        by_cases hle : f m ≤ f c
        · rw [if_pos hle, if_neg (not_lt.mpr hle)]
          rfl
        · rw [if_neg hle, if_pos (lt_of_not_le hle)]
          rfl

theorem firstArgmax_mem {α : Type} (f : α → ℚ) (l : List α) :
    ∀ w : α, firstArgmax f l = some w → w ∈ l := by
  induction l with
  | nil => intro w h; exact Option.noConfusion h
  | cons x xs ih =>
    intro w h
    cases hfa : firstArgmax f xs with
    | none =>
      rw [firstArgmax_cons_none f x xs hfa] at h
      have hx : x = w := Option.some.inj h
      subst hx
      exact List.mem_cons_self x xs
    | some m =>
      rw [firstArgmax_cons_some f x xs m hfa] at h
      by_cases hc : f x < f m
      · rw [if_pos hc] at h
        have : m = w := Option.some.inj h
        subst this
        exact List.mem_cons_of_mem x (ih m hfa)
      · rw [if_neg hc] at h
        have : x = w := Option.some.inj h
        subst this
        exact List.mem_cons_self x xs

theorem firstArgmax_le {α : Type} (f : α → ℚ) (l : List α) :
    ∀ w : α, firstArgmax f l = some w → ∀ y ∈ l, f y ≤ f w := by
  induction l with
  | nil => intro w h y hy; exact absurd hy (List.not_mem_nil y)
  | cons x xs ih =>
    intro w h
    cases hfa : firstArgmax f xs with
    | none =>
      rw [firstArgmax_cons_none f x xs hfa] at h
      have hx : x = w := Option.some.inj h
      subst hx
      have hxs : xs = [] := firstArgmax_nil_of_none f xs hfa
      subst hxs
      intro y hy
      have : y = x := by simpa using hy
      subst this
      exact le_refl _
    | some m =>
      rw [firstArgmax_cons_some f x xs m hfa] at h
      intro y hy
      rcases List.mem_cons.mp hy with hy | hy
      · subst hy
        by_cases hc : f y < f m
        · rw [if_pos hc] at h
          have : m = w := Option.some.inj h
          subst this
          exact le_of_lt hc
        · rw [if_neg hc] at h
          have : y = w := Option.some.inj h
          subst this
          exact le_refl _
      · by_cases hc : f x < f m
        · rw [if_pos hc] at h
          have : m = w := Option.some.inj h
          subst this
          exact ih m hfa y hy
        · rw [if_neg hc] at h
          have : x = w := Option.some.inj h
          subst this
          exact le_trans (ih m hfa y hy) (not_lt.mp hc)

theorem findBestOrganelle_eq_head (regv : List OrganelleCapacity)
    (req : TaskRequest) (t : TaskType) :
    findBestOrganelle regv req t =
      (sortDesc (findCandidates regv req t)).head?.map Prod.snd := by
  unfold findBestOrganelle
  cases sortDesc (findCandidates regv req t) with
  | nil => rfl
  | cons p rest => rfl

theorem findBestOrganelle_eq_firstArgmax (regv : List OrganelleCapacity)
    (req : TaskRequest) (t : TaskType) :
    findBestOrganelle regv req t =
      firstArgmax (fun c => calculateOrganelleFitness c req t)
        (eligibleOrganelles regv t) := by
  have h := sortDesc_head_firstArgmax
    (fun c => calculateOrganelleFitness c req t) (eligibleOrganelles regv t)
  rw [findBestOrganelle_eq_head]
  have h2 : findCandidates regv req t = (eligibleOrganelles regv t).map
      (fun c => ((fun c => calculateOrganelleFitness c req t) c, c)) := rfl
  rw [h2, h]
  cases firstArgmax (fun c => calculateOrganelleFitness c req t)
      (eligibleOrganelles regv t) with
  | none => rfl
  | some m => rfl

theorem findBestOrganelle_mem_eligible (regv : List OrganelleCapacity)
    (req : TaskRequest) (t : TaskType) (w : OrganelleCapacity)
    (h : findBestOrganelle regv req t = some w) :
    w ∈ eligibleOrganelles regv t := by
  rw [findBestOrganelle_eq_firstArgmax] at h
  exact firstArgmax_mem _ _ w h

theorem mem_eligibleOrganelles (regv : List OrganelleCapacity)
    (t : TaskType) (c : OrganelleCapacity) (h : c ∈ eligibleOrganelles regv t) :
    c ∈ regv ∧ c.current_tasks < c.max_concurrent_tasks ∧
      organelleCanHandleTask c t = true := by
  unfold eligibleOrganelles at h
  have h2 := List.mem_filter.mp h
  refine ⟨h2.1, ?_, ?_⟩
  · have := h2.2
    simp only [Bool.and_eq_true, decide_eq_true_eq] at this
    exact this.1
  · have := h2.2
    simp only [Bool.and_eq_true, decide_eq_true_eq] at this
    exact this.2

/-- `organelle_can_handle_task` in disjunctive form: desktop cell, or the
task type's value declared among the capabilities. -/
theorem organelleCanHandleTask_iff (c : OrganelleCapacity) (t : TaskType) :
    organelleCanHandleTask c t = true ↔
      (c.type = "desktop-cell" ∨ t.val ∈ c.capabilities) := by
  unfold organelleCanHandleTask
  by_cases hd : c.type = "desktop-cell"
  · rw [if_pos hd]
    simp [hd]
  · rw [if_neg hd]
    cases t <;>
      simp [TaskType.val, hd]

/-- Update-or-append on an insertion-ordered association list:
`self.organelle_capacities[key] = value` on a Python dict. -/
def dictSet {α : Type} (reg : List (String × α)) (k : String) (v : α) :
    List (String × α) :=
  if reg.any (fun p => p.1 = k) then
    reg.map (fun p => if p.1 = k then (k, v) else p)
  else reg ++ [(k, v)]

theorem dictSet_mem {α : Type} (reg : List (String × α)) (k : String) (v : α)
    (p : String × α) (h : p ∈ dictSet reg k v) : p ∈ reg ∨ p.2 = v := by
  unfold dictSet at h
  by_cases ha : reg.any (fun p => p.1 = k) = true
  · rw [if_pos ha] at h
    rcases List.mem_map.mp h with ⟨q, hq, hqe⟩
    by_cases hk : q.1 = k
    · rw [if_pos hk] at hqe
      right
      rw [← hqe]
    · rw [if_neg hk] at hqe
      left
      rw [← hqe]
      exact hq
  · rw [if_neg ha] at h
    rcases List.mem_append.mp h with h | h
    · exact Or.inl h
    · right
      have : p = (k, v) := by simpa using h
      rw [this]

/-- `organelle.current_tasks += 1` on the chosen registry entry (the object
stored in the dict is mutated in place in the source): replace the first
entry holding the chosen capacity record by the record with its load
incremented. -/
def incrementLoad (reg : List (String × OrganelleCapacity))
    (w : OrganelleCapacity) : List (String × OrganelleCapacity) :=
  match reg with
  | [] => []
  | p :: rest =>
    if p.2 = w then
      (p.1, { w with current_tasks := w.current_tasks + 1 }) :: rest
    else p :: incrementLoad rest w

theorem incrementLoad_mem (reg : List (String × OrganelleCapacity))
    (w : OrganelleCapacity) (p : String × OrganelleCapacity)
    (h : p ∈ incrementLoad reg w) :
    p ∈ reg ∨ p.2 = { w with current_tasks := w.current_tasks + 1 } := by
  induction reg with
  | nil => exact absurd h (List.not_mem_nil p)
  | cons q rest ih =>
    unfold incrementLoad at h
    by_cases hq : q.2 = w
    · rw [if_pos hq] at h
      rcases List.mem_cons.mp h with h | h
      · right; rw [h]
      · exact Or.inl (List.mem_cons_of_mem q h)
    · rw [if_neg hq] at h
      rcases List.mem_cons.mp h with h | h
      · exact Or.inl (h ▸ List.mem_cons_self q rest)
      · rcases ih h with h2 | h2
        · exact Or.inl (List.mem_cons_of_mem q h2)
        · exact Or.inr h2

/-- The registry mutations of the source, acting on the insertion-ordered
`organelle_capacities` dict:
`register_organelle` (store the caller's snapshot under its own id),
`organelle_heartbeat` (stamp `last_heartbeat` with the current time, store
under the path id), the dispatch step's load increment
(`send_to_micro_organelle`, which is skipped for the desktop cell and when
no worker is chosen or the task type fails to parse — the raised
`ValueError` leaves the registry untouched), and the heartbeat monitor scan
(`monitor_heartbeats`). -/
inductive RegistryOp where
  | registerOrganelle (c : OrganelleCapacity)
  | organelleHeartbeat (id : String) (c : OrganelleCapacity) (now : Int)
  | dispatchWithIncrement (req : TaskRequest)
  | monitorScan (now timeout_s : Int)

/-- One registry mutation, translated from the source operation by
operation. -/
def applyRegistryOp (reg : List (String × OrganelleCapacity)) :
    RegistryOp → List (String × OrganelleCapacity)
  | .registerOrganelle c => dictSet reg c.organelle_id c
  | .organelleHeartbeat id c now =>
      dictSet reg id { c with last_heartbeat := some now }
  | .dispatchWithIncrement req =>
      match parseTaskType req.task_type with
      | none => reg
      | some t =>
        match findBestOrganelle (reg.map Prod.snd) req t with
        | none => reg
        | some w =>
          if w.type = "desktop-cell" then reg else incrementLoad reg w
  | .monitorScan now timeout_s =>
      reg.filter fun p =>
        match p.2.last_heartbeat with
        | some hb => decide (now - timeout_s ≤ hb)
        | none => false

/-- Run a sequence of registry mutations from the initial empty registry of
`TaskDispatcherOrganelle.__init__`. -/
def runRegistryOps (ops : List RegistryOp) :
    List (String × OrganelleCapacity) :=
  ops.foldl applyRegistryOp []

/-- The capacity invariant `0 <= currentLoad <= maxConcurrent` on one
worker record. -/
def capOk (c : OrganelleCapacity) : Prop :=
  0 ≤ c.current_tasks ∧ c.current_tasks ≤ c.max_concurrent_tasks

instance : DecidablePred capOk := fun c =>
  inferInstanceAs
    (Decidable (0 ≤ c.current_tasks ∧ c.current_tasks ≤ c.max_concurrent_tasks))

/-- An externally supplied worker snapshot respects the capacity bounds.
The source performs no such validation; this is the hypothesis under which
the capacity invariant is provable. -/
def snapshotOk : RegistryOp → Prop
  | .registerOrganelle c => capOk c
  | .organelleHeartbeat _ c _ => capOk c
  | .dispatchWithIncrement _ => True
  | .monitorScan _ _ => True

instance : DecidablePred snapshotOk := fun op =>
  match op with
  | .registerOrganelle c => inferInstanceAs (Decidable (capOk c))
  | .organelleHeartbeat _ c _ => inferInstanceAs (Decidable (capOk c))
  | .dispatchWithIncrement _ => inferInstanceAs (Decidable True)
  | .monitorScan _ _ => inferInstanceAs (Decidable True)

theorem applyRegistryOp_preserves_capOk
    (reg : List (String × OrganelleCapacity)) (op : RegistryOp)
    (hreg : ∀ p ∈ reg, capOk p.2) (hop : snapshotOk op) :
    ∀ p ∈ applyRegistryOp reg op, capOk p.2 := by
  intro p hp
  cases op with
  | registerOrganelle c =>
    rcases dictSet_mem reg c.organelle_id c p hp with h | h
    · exact hreg p h
    · rw [h]; exact hop
  | organelleHeartbeat id c now =>
    rcases dictSet_mem reg id { c with last_heartbeat := some now } p hp
      with h | h
    · exact hreg p h
    · rw [h]; exact hop
  | dispatchWithIncrement req =>
    cases ht : parseTaskType req.task_type with
    | none => simp only [applyRegistryOp, ht] at hp; exact hreg p hp
    | some t =>
      simp only [applyRegistryOp, ht] at hp
      cases hb : findBestOrganelle (reg.map Prod.snd) req t with
      | none => simp only [hb] at hp; exact hreg p hp
      | some w =>
        simp only [hb] at hp
        by_cases hd : w.type = "desktop-cell"
        · rw [if_pos hd] at hp; exact hreg p hp
        · rw [if_neg hd] at hp
          rcases incrementLoad_mem reg w p hp with h | h
          · exact hreg p h
          · have hw := findBestOrganelle_mem_eligible _ _ _ _ hb
            have hw2 := mem_eligibleOrganelles _ _ _ hw
            rcases List.mem_map.mp hw2.1 with ⟨q, hq, hqe⟩
            have hcap : capOk w := hqe ▸ hreg q hq
            rw [h]
            have h1 := hcap.1
            have h2 := hw2.2.1
            constructor
            · show 0 ≤ w.current_tasks + 1
              omega
            · show w.current_tasks + 1 ≤ w.max_concurrent_tasks
              omega
  | monitorScan now timeout_s =>
    simp only [applyRegistryOp] at hp
    exact hreg p (List.mem_filter.mp hp).1

theorem foldl_registryOps_capOk (ops : List RegistryOp) :
    ∀ (reg : List (String × OrganelleCapacity)),
      (∀ p ∈ reg, capOk p.2) → (∀ op ∈ ops, snapshotOk op) →
      ∀ p ∈ ops.foldl applyRegistryOp reg, capOk p.2 := by
  induction ops with
  | nil => intro reg hreg _ p hp; exact hreg p hp
  | cons op rest ih =>
    intro reg hreg hops p hp
    exact ih (applyRegistryOp reg op)
      (applyRegistryOp_preserves_capOk reg op hreg
        (hops op (List.mem_cons_self op rest)))
      (fun o ho => hops o (List.mem_cons_of_mem op ho)) p hp

/-- The in-memory state of `TaskDispatcherOrganelle` touched by one
`dispatch_task` call: the worker registry, the FIFO task queue, the
`active_tasks` assignment map, and the Redis-stored task records
(written through by `store_task_in_redis`). -/
structure DispatcherState where
  organelle_capacities : List (String × OrganelleCapacity)
  task_queue : List TaskData
  active_tasks : List (String × TaskAssignment)
  redis_tasks : List (String × TaskData)
deriving DecidableEq

/-- `task_queue.put(task_data)` on the FIFO `asyncio.Queue`. -/
def queuePut (q : List TaskData) (td : TaskData) : List TaskData :=
  q ++ [td]

/-- `task_queue.get()` on the FIFO `asyncio.Queue`: the oldest task first. -/
def queueGet (q : List TaskData) : Option (TaskData × List TaskData) :=
  match q with
  | [] => none
  | td :: rest => some (td, rest)

/-- `dispatch_task`, translated branch by branch from the source.  `now` is
`datetime.utcnow().isoformat()` at assignment time; `deliveryOk` is the
outcome of the external HTTP exchange of `send_to_desktop_cell` (connection
check, POST, status code) — `send_to_micro_organelle` has no failure path
in the source.  On a failed desktop delivery the source merely re-queues
the mutated `task_data` dict (whose status was already set to "assigned");
it neither resets the status, nor removes the `active_tasks` entry, nor
adjusts any load.  The desktop cell's load is never incremented; a micro
organelle's load is incremented inside `send_to_micro_organelle`. -/
def dispatchTask (s : DispatcherState) (td : TaskData) (now : String)
    (deliveryOk : Bool) : DispatcherState :=
  match parseTaskType td.request.task_type with
  | none => s
  | some t =>
    match findBestOrganelle (s.organelle_capacities.map Prod.snd)
        td.request t with
    | none =>
      { s with task_queue := queuePut s.task_queue td }
    | some best =>
      let assignment : TaskAssignment :=
        ⟨td.task_id, best.organelle_id, now⟩
      let active := dictSet s.active_tasks td.task_id assignment
      let td2 : TaskData := { td with status := TaskStatus.assigned.val }
      let redis2 := dictSet s.redis_tasks td.task_id td2
      if best.type = "desktop-cell" then
        if deliveryOk then
          { s with active_tasks := active, redis_tasks := redis2 }
        else
          { s with active_tasks := active, redis_tasks := redis2,
                   task_queue := queuePut s.task_queue td2 }
      else
        { s with active_tasks := active, redis_tasks := redis2,
                 organelle_capacities :=
                   incrementLoad s.organelle_capacities best }

/-- The priority multiplier of `estimate_queue_time`. -/
def priorityMultiplier (p : TaskPriority) : ℚ :=
  if p = .critical then 1/10
  else if p = .high then 1/2
  else if p = .normal then 1
  else 2

/-- `estimate_queue_time`, with float arithmetic carried out exactly in
`ℚ`: queue depth times 2 seconds per queued task, scaled by the priority
multiplier; an unparseable priority falls back to `NORMAL`.  The source
formats the value as a one-decimal string; the model keeps the number. -/
def estimateQueueTime (queueDepth : Nat) (priority : String) : ℚ :=
  let priority_enum := (parseTaskPriority priority).getD .normal
  let base_time : ℚ := (queueDepth : ℚ) * 2
  base_time * priorityMultiplier priority_enum

theorem parseTaskType_eq_val (s : String) (t : TaskType)
    (h : parseTaskType s = some t) : s = t.val := by
  unfold parseTaskType at h
  split_ifs at h with h1 h2 h3 h4
  · have := Option.some.inj h; subst this; exact h1
  · have := Option.some.inj h; subst this; exact h2
  · have := Option.some.inj h; subst this; exact h3
  · have := Option.some.inj h; subst this; exact h4

theorem TaskType.val_complex_iff (t : TaskType) :
    t.val = TaskType.complex.val ↔ t = TaskType.complex := by
  cases t <;> simp [TaskType.val]

theorem queuePut_foldl (tds : List TaskData) :
    ∀ acc : List TaskData, tds.foldl queuePut acc = acc ++ tds := by
  induction tds with
  | nil => intro acc; simp
  | cons td rest ih =>
    intro acc
    show rest.foldl queuePut (queuePut acc td) = acc ++ td :: rest
    rw [ih (queuePut acc td)]
    unfold queuePut
    simp

/-- C8.  Argmax selection with deterministic tie-break:
`find_best_organelle` computes exactly the specification's selection
contract `firstArgmax` — the candidate with the maximal fitness score,
ties resolved in favour of the first candidate in registry iteration order
(Python's `list.sort` is stable, also with `reverse=True`), and no
candidate when the eligible set is empty.  The second conjunct spells out
membership and maximality of the returned worker, the third the
empty-set/no-candidate correspondence. -/
theorem selection_is_first_argmax (regv : List OrganelleCapacity)
    (req : TaskRequest) (t : TaskType) :
    findBestOrganelle regv req t =
      firstArgmax (fun c => calculateOrganelleFitness c req t)
        (eligibleOrganelles regv t) ∧
    (∀ w, findBestOrganelle regv req t = some w →
      w ∈ eligibleOrganelles regv t ∧
      ∀ y ∈ eligibleOrganelles regv t,
        calculateOrganelleFitness y req t ≤
          calculateOrganelleFitness w req t) ∧
    (eligibleOrganelles regv t = [] ↔
      findBestOrganelle regv req t = none) := by
  refine ⟨findBestOrganelle_eq_firstArgmax regv req t, ?_, ?_, ?_⟩
  · intro w hw
    rw [findBestOrganelle_eq_firstArgmax] at hw
    exact ⟨firstArgmax_mem _ _ w hw, firstArgmax_le _ _ w hw⟩
  · intro he
    rw [findBestOrganelle_eq_firstArgmax, he]
    exact rfl
  · intro hn
    rw [findBestOrganelle_eq_firstArgmax] at hn
    cases hfa : firstArgmax (fun c => calculateOrganelleFitness c req t)
        (eligibleOrganelles regv t) with
    | none => exact firstArgmax_nil_of_none _ _ hfa
    | some m => rw [hfa] at hn; exact Option.noConfusion hn

/-- Tie-break fixture for the C8 witness: two micro workers identical in
every routing-relevant field, differing only in id. -/
def waC8 : OrganelleCapacity :=
  ⟨"a", "micro", 2, 0, ["lightweight"], some 0⟩

/-- Second worker of the C8 tie-break fixture. -/
def wbC8 : OrganelleCapacity :=
  ⟨"b", "micro", 2, 0, ["lightweight"], some 0⟩

/-- Request fixture for the C8 witness. -/
def reqC8 : TaskRequest :=
  ⟨"lightweight", "normal", "x", 300, false⟩

/-- Witness for C8 at a concrete registry: the two workers tie on the
score and the first one in iteration order is chosen; the second worker's
score does not exceed the winner's. -/
theorem selection_is_first_argmax_witness :
    findBestOrganelle [waC8, wbC8] reqC8 TaskType.lightweight = some waC8 ∧
    waC8 ∈ eligibleOrganelles [waC8, wbC8] TaskType.lightweight ∧
    calculateOrganelleFitness wbC8 reqC8 TaskType.lightweight ≤
      calculateOrganelleFitness waC8 reqC8 TaskType.lightweight := by
  have hf : calculateOrganelleFitness waC8 reqC8 TaskType.lightweight =
      calculateOrganelleFitness wbC8 reqC8 TaskType.lightweight := rfl
  have h1 : firstArgmax
      (fun c => calculateOrganelleFitness c reqC8 TaskType.lightweight)
      [wbC8] = some wbC8 := rfl
  have h2 := firstArgmax_cons_some
    (fun c => calculateOrganelleFitness c reqC8 TaskType.lightweight)
    waC8 [wbC8] wbC8 h1
  have h3 : firstArgmax
      (fun c => calculateOrganelleFitness c reqC8 TaskType.lightweight)
      [waC8, wbC8] = some waC8 := by
    rw [h2, if_neg (not_lt.mpr (le_of_eq hf.symm))]
  have helig : eligibleOrganelles [waC8, wbC8] TaskType.lightweight =
      [waC8, wbC8] := by decide
  have heq := (selection_is_first_argmax [waC8, wbC8] reqC8
    TaskType.lightweight).1
  rw [helig] at heq
  have hbest : findBestOrganelle [waC8, wbC8] reqC8 TaskType.lightweight =
      some waC8 := heq.trans h3
  have h := (selection_is_first_argmax [waC8, wbC8] reqC8
    TaskType.lightweight).2.1 waC8 hbest
  have hmemb : wbC8 ∈ eligibleOrganelles [waC8, wbC8] TaskType.lightweight := by
    rw [helig]
    exact List.mem_cons_of_mem _ (List.mem_cons_self _ _)
  exact ⟨hbest, h.1, h.2 wbC8 hmemb⟩

/-- C3.  Eligibility: the candidate set considered by selection is exactly
the registered workers strictly under capacity that are either the desktop
cell or declare the task type's value among their capabilities. -/
theorem eligibility_exact (regv : List OrganelleCapacity) (t : TaskType)
    (c : OrganelleCapacity) :
    c ∈ eligibleOrganelles regv t ↔
      c ∈ regv ∧ c.current_tasks < c.max_concurrent_tasks ∧
        (c.type = "desktop-cell" ∨ t.val ∈ c.capabilities) := by
  constructor
  · intro h
    have h2 := mem_eligibleOrganelles regv t c h
    exact ⟨h2.1, h2.2.1, (organelleCanHandleTask_iff c t).mp h2.2.2⟩
  · intro h
    unfold eligibleOrganelles
    refine List.mem_filter.mpr ⟨h.1, ?_⟩
    simp only [Bool.and_eq_true, decide_eq_true_eq]
    exact ⟨h.2.1, (organelleCanHandleTask_iff c t).mpr h.2.2⟩

/-- C2.  Fitness score formula: for an eligible worker and a task whose
priority parses, `calculate_organelle_fitness` equals the specification's
closed formula, and the priority term `5 * ordinal` ranges over `5..20`. -/
theorem fitness_score_formula (c : OrganelleCapacity) (req : TaskRequest)
    (t : TaskType) (p : TaskPriority)
    (ht : parseTaskType req.task_type = some t)
    (hp : parseTaskPriority req.priority = some p)
    (h0 : 0 ≤ c.current_tasks)
    (h1 : c.current_tasks < c.max_concurrent_tasks) :
    calculateOrganelleFitness c req t =
      50 * (1 - (c.current_tasks : ℚ) / (c.max_concurrent_tasks : ℚ))
        + 30 * (if t.val ∈ c.capabilities then 1 else 0)
        + 20 * (if c.type = "desktop-cell" ∧ t = TaskType.complex
                then 1 else 0)
        + 5 * (p.val : ℚ) ∧
    5 ≤ 5 * (p.val : ℚ) ∧ 5 * (p.val : ℚ) ≤ 20 := by
  constructor
  · have hv : req.task_type = t.val := parseTaskType_eq_val _ _ ht
    have e1 : (if c.capabilities.contains t.val then (30:ℚ) else 0) =
        30 * (if t.val ∈ c.capabilities then 1 else 0) := by
      by_cases hcap : t.val ∈ c.capabilities <;> simp [hcap]
    have e2 : (if c.type = "desktop-cell" ∧ t.val = TaskType.complex.val
          then (20:ℚ) else 0) =
        20 * (if c.type = "desktop-cell" ∧ t = TaskType.complex
              then 1 else 0) := by
      by_cases hdt : c.type = "desktop-cell" ∧ t = TaskType.complex
      · have hval : t.val = TaskType.complex.val :=
          (TaskType.val_complex_iff t).mpr hdt.2
        rw [if_pos ⟨hdt.1, hval⟩, if_pos hdt]
        ring
      · have hneg : ¬(c.type = "desktop-cell" ∧
            t.val = TaskType.complex.val) := by
          intro hcontra
          exact hdt ⟨hcontra.1, (TaskType.val_complex_iff t).mp hcontra.2⟩
        rw [if_neg hneg, if_neg hdt]
        ring
    simp only [calculateOrganelleFitness, priorityBonus, hp, hv]
    rw [e1, e2]
    ring
  · cases p <;> norm_num [TaskPriority.val]

/-- Worker fixture for the C2 witness. -/
def cC2 : OrganelleCapacity :=
  ⟨"w", "micro", 4, 1, ["lightweight"], some 0⟩

/-- Request fixture for the C2 witness. -/
def reqC2 : TaskRequest :=
  ⟨"lightweight", "high", "x", 300, false⟩

/-- Witness for C2 at a concrete eligible worker and HIGH-priority task. -/
theorem fitness_score_formula_witness :
    calculateOrganelleFitness cC2 reqC2 TaskType.lightweight =
      50 * (1 - (cC2.current_tasks : ℚ) / (cC2.max_concurrent_tasks : ℚ))
        + 30 * (if TaskType.lightweight.val ∈ cC2.capabilities then 1 else 0)
        + 20 * (if cC2.type = "desktop-cell" ∧
                  TaskType.lightweight = TaskType.complex then 1 else 0)
        + 5 * (TaskPriority.high.val : ℚ) ∧
    5 ≤ 5 * (TaskPriority.high.val : ℚ) ∧
    5 * (TaskPriority.high.val : ℚ) ≤ 20 :=
  fitness_score_formula cC2 reqC2 TaskType.lightweight TaskPriority.high
    (by decide) (by decide) (by decide) (by decide)

/-- C9.  Queue-time estimate: `estimate_queue_time` returns
`queueDepth * 2 * multiplier` with multiplier 0.1 for CRITICAL, 0.5 for
HIGH, 1.0 for NORMAL and 2.0 for LOW, while the queue itself is strict
FIFO: submissions land at the tail in order and `get` returns the head, so
priority never reorders dequeueing. -/
theorem queue_time_estimate (depth : Nat) (ps : String) (p : TaskPriority)
    (hp : parseTaskPriority ps = some p) :
    estimateQueueTime depth ps = (depth : ℚ) * 2 * priorityMultiplier p ∧
    priorityMultiplier TaskPriority.critical = 1/10 ∧
    priorityMultiplier TaskPriority.high = 1/2 ∧
    priorityMultiplier TaskPriority.normal = 1 ∧
    priorityMultiplier TaskPriority.low = 2 ∧
    (∀ tds : List TaskData, tds.foldl queuePut [] = tds) ∧
    (∀ (td : TaskData) (rest : List TaskData),
      queueGet (td :: rest) = some (td, rest)) := by
  refine ⟨?_, rfl, rfl, rfl, rfl, ?_, fun td rest => rfl⟩
  · unfold estimateQueueTime
    rw [hp]
    exact rfl
  · intro tds
    rw [queuePut_foldl tds []]
    simp

/-- Task fixture for the C9 witness. -/
def tdC9 : TaskData :=
  ⟨"t7", ⟨"lightweight", "low", "pq", 300, false⟩, "s0", "pending"⟩

/-- Witness for C9 with a HIGH-priority submission and queue depth 3,
the FIFO facts instantiated at a concrete one-task queue. -/
theorem queue_time_estimate_witness :
    estimateQueueTime 3 "high" =
      ((3 : Nat) : ℚ) * 2 * priorityMultiplier TaskPriority.high ∧
    priorityMultiplier TaskPriority.critical = 1/10 ∧
    priorityMultiplier TaskPriority.high = 1/2 ∧
    priorityMultiplier TaskPriority.normal = 1 ∧
    priorityMultiplier TaskPriority.low = 2 ∧
    List.foldl queuePut [] [tdC9] = [tdC9] ∧
    queueGet (tdC9 :: []) = some (tdC9, []) := by
  have h := queue_time_estimate 3 "high" TaskPriority.high (by decide)
  exact ⟨h.1, h.2.1, h.2.2.1, h.2.2.2.1, h.2.2.2.2.1,
    h.2.2.2.2.2.1 [tdC9], h.2.2.2.2.2.2 tdC9 []⟩

/-- C10.  Invalid priority strings raise no error at either interface but
default differently: `estimate_queue_time` falls back to the NORMAL
multiplier 1.0, while the fitness score's priority bonus term contributes
0 (below the 5..20 range of valid priorities).  Both model functions are
total, matching the source's caught exceptions. -/
theorem invalid_priority_defaults (s : String) (depth : Nat)
    (h : parseTaskPriority s = none) :
    estimateQueueTime depth s = (depth : ℚ) * 2 * 1 ∧
    priorityBonus s = 0 := by
  constructor
  · unfold estimateQueueTime
    rw [h]
    exact rfl
  · unfold priorityBonus
    rw [h]

/-- Witness for C10 on the unrecognised priority string "urgent". -/
theorem invalid_priority_defaults_witness :
    estimateQueueTime 3 "urgent" = ((3 : Nat) : ℚ) * 2 * 1 ∧
    priorityBonus "urgent" = 0 :=
  invalid_priority_defaults "urgent" 3 (by decide)

/-- C6.  No-eligible-worker atomicity: when the eligible set is empty the
dispatched task is re-enqueued as the identical record (same id, payload
and still-PENDING status), and registry, assignment map and stored task
records are all left untouched — the resulting state differs from the
input state only by the re-appended queue entry. -/
theorem no_eligible_worker_requeue (s : DispatcherState) (td : TaskData)
    (now : String) (ok : Bool) (t : TaskType)
    (ht : parseTaskType td.request.task_type = some t)
    (he : eligibleOrganelles (s.organelle_capacities.map Prod.snd) t = []) :
    dispatchTask s td now ok =
      { s with task_queue := queuePut s.task_queue td } := by
  have hb : findBestOrganelle (s.organelle_capacities.map Prod.snd)
      td.request t = none := by
    rw [findBestOrganelle_eq_firstArgmax, he]
    exact rfl
  simp only [dispatchTask, ht, hb]

/-- Worker fixture for the C6 witness: a micro worker with capacity but
without the "network" capability. -/
def wC6 : OrganelleCapacity :=
  ⟨"m", "micro", 2, 0, ["lightweight"], some 0⟩

/-- State fixture for the C6 witness. -/
def sC6 : DispatcherState :=
  ⟨[("m", wC6)], [], [], []⟩

/-- Task fixture for the C6 witness: a NETWORK task no registered worker
can serve. -/
def tdC6 : TaskData :=
  ⟨"t2", ⟨"network", "normal", "pp", 300, false⟩, "s0", "pending"⟩

/-- Witness for C6: the NETWORK task is re-enqueued unchanged and the rest
of the state is untouched. -/
theorem no_eligible_worker_requeue_witness :
    dispatchTask sC6 tdC6 "t5" true =
      { sC6 with task_queue := queuePut sC6.task_queue tdC6 } :=
  no_eligible_worker_requeue sC6 tdC6 "t5" true TaskType.network
    (by decide) (by decide)

/-- Desktop-cell worker fixture for the C4/C5 analysis. -/
def deskW : OrganelleCapacity :=
  ⟨"desk", "desktop-cell", 4, 0, [], some 0⟩

/-- Dispatcher state fixture holding only the desktop cell. -/
def deskState : DispatcherState :=
  ⟨[("desk", deskW)], [], [], []⟩

/-- Pending COMPLEX task fixture routed to the desktop cell. -/
def deskTd : TaskData :=
  ⟨"t1", ⟨"complex", "high", "pay", 300, true⟩, "s0", "pending"⟩

/-- C5 (amended).  Dispatch success step: when selection chooses a worker,
`dispatch_task` records the Assignment in `active_tasks`, stores the task
with status ASSIGNED, and attempts delivery; the load increment happens
inside the delivery step (`send_to_micro_organelle`) and only for a
non-desktop-cell worker — the desktop cell's `current_tasks` is never
incremented. -/
theorem dispatch_success_step (s : DispatcherState) (td : TaskData)
    (now : String) (deliveryOk : Bool) (t : TaskType)
    (best : OrganelleCapacity)
    (ht : parseTaskType td.request.task_type = some t)
    (hb : findBestOrganelle (s.organelle_capacities.map Prod.snd)
      td.request t = some best) :
    (best.type = "desktop-cell" → deliveryOk = true →
      dispatchTask s td now deliveryOk =
        { s with
            active_tasks := dictSet s.active_tasks td.task_id
              ⟨td.task_id, best.organelle_id, now⟩,
            redis_tasks := dictSet s.redis_tasks td.task_id
              { td with status := TaskStatus.assigned.val } }) ∧
    (best.type ≠ "desktop-cell" →
      dispatchTask s td now deliveryOk =
        { s with
            active_tasks := dictSet s.active_tasks td.task_id
              ⟨td.task_id, best.organelle_id, now⟩,
            redis_tasks := dictSet s.redis_tasks td.task_id
              { td with status := TaskStatus.assigned.val },
            organelle_capacities :=
              incrementLoad s.organelle_capacities best }) := by
  constructor
  · intro hd hok
    subst hok
    simp only [dispatchTask, ht, hb, if_pos hd, if_true]
  · intro hd
    simp only [dispatchTask, ht, hb, if_neg hd]

/-- Counterexample to C5 as stated: the desktop cell (with load 0) is
chosen and delivery succeeds, yet the registry after the dispatch step
still records load 0 — no worker's `current_tasks` was incremented. -/
theorem dispatch_success_step_cex :
    findBestOrganelle (deskState.organelle_capacities.map Prod.snd)
      deskTd.request TaskType.complex = some deskW ∧
    parseTaskType deskTd.request.task_type = some TaskType.complex ∧
    (dispatchTask deskState deskTd "t1" true).organelle_capacities =
      [("desk", deskW)] ∧
    deskW.current_tasks = 0 :=
  ⟨findBestOrganelle_eq_firstArgmax _ _ _, rfl, rfl, rfl⟩

/-- Micro-organelle worker fixture for the C5 witness. -/
def microW : OrganelleCapacity :=
  ⟨"m1", "micro", 2, 0, ["lightweight"], some 0⟩

/-- Dispatcher state fixture holding only the micro organelle. -/
def microState : DispatcherState :=
  ⟨[("m1", microW)], [], [], []⟩

/-- Pending LIGHTWEIGHT task fixture routed to the micro organelle. -/
def microTd : TaskData :=
  ⟨"t3", ⟨"lightweight", "low", "pl", 300, false⟩, "s0", "pending"⟩

/-- Witness for C5 (amended) on the micro organelle: assignment recorded,
status stored as ASSIGNED, and the worker's load incremented. -/
theorem dispatch_success_step_witness :
    dispatchTask microState microTd "t9" true =
      { microState with
          active_tasks := dictSet microState.active_tasks microTd.task_id
            ⟨microTd.task_id, microW.organelle_id, "t9"⟩,
          redis_tasks := dictSet microState.redis_tasks microTd.task_id
            { microTd with status := TaskStatus.assigned.val },
          organelle_capacities :=
            incrementLoad microState.organelle_capacities microW } :=
  (dispatch_success_step microState microTd "t9" true TaskType.lightweight
    microW (by decide) (findBestOrganelle_eq_firstArgmax _ _ _)).2
    (by decide)

/-- C4 (amended).  Delivery failure on the desktop-cell path (the only
fallible delivery in the source): the task is re-enqueued with identity
and payload unchanged — so it remains eligible for re-dispatch — but its
status stays ASSIGNED rather than returning to PENDING, the Assignment
stays in `active_tasks`, and no `current_tasks` value is decremented (the
desktop cell's load was never incremented). -/
theorem delivery_failure_requeue (s : DispatcherState) (td : TaskData)
    (now : String) (t : TaskType) (best : OrganelleCapacity)
    (ht : parseTaskType td.request.task_type = some t)
    (hb : findBestOrganelle (s.organelle_capacities.map Prod.snd)
      td.request t = some best)
    (hd : best.type = "desktop-cell") :
    dispatchTask s td now false =
      { s with
          active_tasks := dictSet s.active_tasks td.task_id
            ⟨td.task_id, best.organelle_id, now⟩,
          redis_tasks := dictSet s.redis_tasks td.task_id
            { td with status := TaskStatus.assigned.val },
          task_queue := queuePut s.task_queue
            { td with status := TaskStatus.assigned.val } } := by
  simp only [dispatchTask, ht, hb, if_pos hd, Bool.false_eq_true, if_false]

/-- Counterexample to C4 as stated: after a failed desktop delivery the
re-enqueued task's status is "assigned" (not "pending"), the Assignment is
still present in `active_tasks`, and the registry is unchanged (no load
was decremented). -/
theorem delivery_failure_cex :
    (dispatchTask deskState deskTd "t1" false).task_queue.map
      TaskData.status = ["assigned"] ∧
    (dispatchTask deskState deskTd "t1" false).active_tasks =
      [("t1", ⟨"t1", "desk", "t1"⟩)] ∧
    (dispatchTask deskState deskTd "t1" false).organelle_capacities =
      deskState.organelle_capacities :=
  ⟨rfl, rfl, rfl⟩

/-- Witness for C4 (amended) on the desktop-cell fixture. -/
theorem delivery_failure_requeue_witness :
    dispatchTask deskState deskTd "t1" false =
      { deskState with
          active_tasks := dictSet deskState.active_tasks deskTd.task_id
            ⟨deskTd.task_id, deskW.organelle_id, "t1"⟩,
          redis_tasks := dictSet deskState.redis_tasks deskTd.task_id
            { deskTd with status := TaskStatus.assigned.val },
          task_queue := queuePut deskState.task_queue
            { deskTd with status := TaskStatus.assigned.val } } :=
  delivery_failure_requeue deskState deskTd "t1" TaskType.complex deskW
    (by decide) (findBestOrganelle_eq_firstArgmax _ _ _) (by decide)

/-- C1 (amended).  Capacity invariant: provided every externally supplied
worker snapshot (register and heartbeat payloads, which the source stores
without validation) itself satisfies `0 <= current_tasks <=
max_concurrent_tasks`, every state reachable from the empty registry by
register, heartbeat, dispatch-with-load-increment and monitor-scan
operations satisfies the invariant for every registered worker — the
dispatch increment only ever targets a worker chosen by selection, which
requires strictly spare capacity. -/
theorem capacity_invariant (ops : List RegistryOp)
    (hops : ∀ op ∈ ops, snapshotOk op) :
    ∀ p ∈ runRegistryOps ops, capOk p.2 :=
  foldl_registryOps_capOk ops []
    (fun p hp => absurd hp (List.not_mem_nil p)) hops

/-- Snapshot fixture violating the capacity bounds (load 5 over a maximum
of 2), accepted verbatim by `register_organelle`. -/
def badCapC1 : OrganelleCapacity :=
  ⟨"w", "micro", 2, 5, [], some 0⟩

/-- Counterexample to C1 as stated: the registry trusts caller-reported
snapshots, so a single register call with `current_tasks = 5` and
`max_concurrent_tasks = 2` reaches a state violating the invariant. -/
theorem capacity_invariant_cex :
    ¬ ∀ ops : List RegistryOp, ∀ p ∈ runRegistryOps ops, capOk p.2 := by
  intro hall
  have h := hall [RegistryOp.registerOrganelle badCapC1]
    ("w", badCapC1) (by decide)
  exact absurd h (by decide)

/-- Operation-sequence fixture for the C1 witness: register, heartbeat,
dispatch of a LIGHTWEIGHT task, and a monitor scan that keeps the
worker. -/
def opsC1 : List RegistryOp :=
  [RegistryOp.registerOrganelle ⟨"a", "micro", 2, 0, ["lightweight"], some 0⟩,
   RegistryOp.organelleHeartbeat "a"
     ⟨"a", "micro", 2, 1, ["lightweight"], some 0⟩ 30,
   RegistryOp.dispatchWithIncrement ⟨"lightweight", "normal", "x", 300, false⟩,
   RegistryOp.monitorScan 80 60]

/-- Witness for C1 (amended): after the concrete operation sequence the
surviving worker record (load 2 of 2 after the dispatch increment)
satisfies the capacity bounds. -/
theorem capacity_invariant_witness :
    capOk (OrganelleCapacity.mk "a" "micro" 2 2 ["lightweight"] (some 30)) :=
  capacity_invariant opsC1 (by decide)
    ("a", OrganelleCapacity.mk "a" "micro" 2 2 ["lightweight"] (some 30))
    (by decide)

/-- C7.  Heartbeat eviction: a registry entry survives a monitor scan
exactly when its `last_heartbeat` parses and its age `now - lastHeartbeat`
is within the timeout — so every worker whose age exceeds the timeout is
removed — and the selection algorithm only ever returns workers present in
the post-scan registry, so an evicted worker is never selected (and its
load no longer enters any selection) until it registers again. -/
theorem heartbeat_eviction (reg : List (String × OrganelleCapacity))
    (now timeout_s : Int) (p : String × OrganelleCapacity) :
    (p ∈ applyRegistryOp reg (.monitorScan now timeout_s) ↔
      p ∈ reg ∧ ∃ hb, p.2.last_heartbeat = some hb ∧
        now - hb ≤ timeout_s) ∧
    (∀ (req : TaskRequest) (t : TaskType) (w : OrganelleCapacity),
      findBestOrganelle
        ((applyRegistryOp reg (.monitorScan now timeout_s)).map Prod.snd)
        req t = some w →
      w ∈ (applyRegistryOp reg (.monitorScan now timeout_s)).map
        Prod.snd) := by
  constructor
  · simp only [applyRegistryOp]
    rw [List.mem_filter]
    constructor
    · rintro ⟨hmem, hcond⟩
      refine ⟨hmem, ?_⟩
      cases hlh : p.2.last_heartbeat with
      | none =>
        rw [hlh] at hcond
        exact absurd hcond (by simp)
      | some hb =>
        rw [hlh] at hcond
        refine ⟨hb, rfl, ?_⟩
        have hle : now - timeout_s ≤ hb := by simpa using hcond
        omega
    · rintro ⟨hmem, hb, hlh, hle⟩
      refine ⟨hmem, ?_⟩
      rw [hlh]
      simp only [decide_eq_true_eq]
      omega
  · intro req t w hw
    have hwe := findBestOrganelle_mem_eligible _ _ _ _ hw
    exact (mem_eligibleOrganelles _ _ _ hwe).1

/-- Registry fixture for the C7 witness: one fresh and one stale worker. -/
def regC7 : List (String × OrganelleCapacity) :=
  [("fresh", ⟨"fresh", "micro", 2, 0, [], some 90⟩),
   ("stale", ⟨"stale", "micro", 2, 0, [], some 10⟩)]

/-- Witness for C7: at time 100 with timeout 60, the fresh worker (age
10) survives the scan, and the scan result is exactly the singleton fresh
registry — the stale worker (age 90) is gone. -/
theorem heartbeat_eviction_witness :
    (("fresh", OrganelleCapacity.mk "fresh" "micro" 2 0 [] (some 90)) ∈
      applyRegistryOp regC7 (RegistryOp.monitorScan 100 60)) ∧
    applyRegistryOp regC7 (RegistryOp.monitorScan 100 60) =
      [("fresh", OrganelleCapacity.mk "fresh" "micro" 2 0 [] (some 90))] :=
  ⟨(heartbeat_eviction regC7 100 60 _).1.mpr
      ⟨by decide, 90, rfl, by decide⟩,
   by decide⟩
